import Mathlib

/-
Verification development for `scripts/project_migration.py` (the Portalis
template migration assistant).

Modelling conventions:
* Python strings are modelled as `List Char` (`Text`).  The tool only ever
  manipulates ASCII project names and markers, so `str.lower`/`str.upper`/
  `str.capitalize` and the regex classes `\w`, `[a-z0-9]`, `[-_]+` are
  modelled at ASCII fidelity (`lowerC`, `upperC`, `isWordChar`, ...).
* The filesystem is a finite map: `FS` holds an association list from
  relative paths (`FPath`, the path segments below the repository root)
  to file contents, plus the list of existing directories.  `Path.exists`
  is `pathExists` (a file or a directory with that path), `Path.rename`
  on a directory is `renameDir` (prefix rewriting of every path).
* Python `set` values (`previous_names`, `previous_bundle_suffixes`) are
  modelled as insertion-ordered duplicate-free lists; CPython's set
  iteration order is unspecified, the list order stands in for it.
* `re.sub(r"\bPortalis\b", ...)` is modelled by `wordSubGo`, a left-to-right
  non-overlapping scanner that tracks whether the previous character is a
  word character; `str.replace` is `replaceAll` (all occurrences) and
  `str.replace(old, new, 1)` is `replaceFirst`.
* `re.sub(rf"^name:\s*{name}\b", ...)` with `re.MULTILINE` is modelled
  line-wise (`nameLineFix`); `\s` is taken as space/tab, which is exact for
  single-line manifests.
* The external `rg` invocation of `find_remaining_markers` is modelled by
  an environment `RgEnv`: a global availability flag (a missing executable
  raises `FileNotFoundError` at the first invocation) and, per pattern, the
  return code and standard output of the search.
* `SystemExit` aborts are modelled by the error type `MigError`
  (`validation` / `notFound` / `conflict`, following the spec taxonomy).
-/

abbrev Text := List Char

/-- Membership test on lists with decidable equality (Python `in`). -/
def memL {α : Type} [DecidableEq α] (x : α) : List α → Bool
  | [] => false
  | y :: rest => if x = y then true else memL x rest

/-- `leadsIn pat s` is true when `pat` is an initial segment of `s`
(Python `str.startswith`, also used for path-prefix tests). -/
def leadsIn {α : Type} [DecidableEq α] : List α → List α → Bool
  | [], _ => true
  | _ :: _, [] => false
  | a :: as, b :: bs => if a = b then leadsIn as bs else false

/-- `endsWithT suf s` (Python `str.endswith`, used for the `*.sh` glob). -/
def endsWithT (suf s : Text) : Bool := leadsIn suf.reverse s.reverse

/-- Substring containment (Python `needle in hay`). -/
def containsSub (needle : Text) : Text → Bool
  | [] => needle = []
  | c :: rest => if leadsIn needle (c :: rest) then true else containsSub needle rest

/-- Python `str.replace(old, new, 1)`: replace the leftmost occurrence only. -/
def replaceFirst (pat rep : Text) : Text → Text
  | [] => []
  | c :: rest =>
    if leadsIn pat (c :: rest) then rep ++ (c :: rest).drop pat.length
    else c :: replaceFirst pat rep rest

/-- Fuelled scanner for `replaceAll`; one unit of fuel is spent per step and
every step consumes at least one character, so `s.length` fuel is enough. -/
def replaceAllGo (pat rep : Text) : Nat → Text → Text
  | 0, s => s
  | _ + 1, [] => []
  | fuel + 1, c :: rest =>
    if pat ≠ [] ∧ leadsIn pat (c :: rest) = true then
      rep ++ replaceAllGo pat rep fuel ((c :: rest).drop pat.length)
    else c :: replaceAllGo pat rep fuel rest

/-- Python `str.replace(old, new)`: replace all (leftmost, non-overlapping)
occurrences. -/
def replaceAll (pat rep s : Text) : Text := replaceAllGo pat rep s.length s

/-- ASCII word character, the `\w` class relevant to `\bPortalis\b`. -/
def isWordChar (c : Char) : Bool :=
  decide ((97 ≤ c.toNat ∧ c.toNat ≤ 122) ∨ (65 ≤ c.toNat ∧ c.toNat ≤ 90) ∨
          (48 ≤ c.toNat ∧ c.toNat ≤ 57) ∨ c.toNat = 95)

/-- There is a word boundary between the end of a match and the rest of the
text iff the rest does not start with a word character. -/
def boundaryAfter : Text → Bool
  | [] => true
  | d :: _ => !(isWordChar d)

/-- `matchAt word prevW s`: the regex `\b<word>\b` matches at the current
position of `s`, given that the previous character's word-ness is `prevW`
(the word itself starts with a word character). -/
def matchAt (word : Text) (prevW : Bool) (s : Text) : Bool :=
  decide (word ≠ []) && leadsIn word s && !prevW && boundaryAfter (s.drop word.length)

/-- Word-ness of the character just before the position after a match:
re scanning resumes in the original text right after the matched word,
so it is the word-ness of the word's last character. -/
def lastIsWord (word : Text) (prevW : Bool) : Bool :=
  match word.reverse with
  | [] => prevW
  | d :: _ => isWordChar d

/-- Fuelled left-to-right non-overlapping `re.sub(r"\b<word>\b", rep, ·)`. -/
def wordSubGo (word rep : Text) : Nat → Bool → Text → Text
  | 0, _, s => s
  | _ + 1, _, [] => []
  | fuel + 1, prevW, c :: rest =>
    if matchAt word prevW (c :: rest) then
      rep ++ wordSubGo word rep fuel (lastIsWord word prevW) ((c :: rest).drop word.length)
    else c :: wordSubGo word rep fuel (isWordChar c) rest

/-- `hasWordOcc word prevW s`: the scan of `wordSubGo` finds at least one
word-boundary occurrence of `word` in `s`. -/
def hasWordOcc (word : Text) : Bool → Text → Bool
  | _, [] => false
  | prevW, c :: rest =>
    if matchAt word prevW (c :: rest) then true else hasWordOcc word (isWordChar c) rest

/-- The compiled pattern `WORD_PORTALIS = re.compile(r"\bPortalis\b")`. -/
def portalisWord : Text := "Portalis".toList

/-- `replace_portalis_word(text, replacement)` from the source:
`WORD_PORTALIS.sub(replacement, text)`. -/
def replace_portalis_word (text replacement : Text) : Text :=
  wordSubGo portalisWord replacement text.length false text

/-- ASCII `str.lower` on one character. -/
def lowerC (c : Char) : Char :=
  if 65 ≤ c.toNat ∧ c.toNat ≤ 90 then Char.ofNat (c.toNat + 32) else c

/-- ASCII `str.upper` on one character. -/
def upperC (c : Char) : Char :=
  if 97 ≤ c.toNat ∧ c.toNat ≤ 122 then Char.ofNat (c.toNat - 32) else c

/-- A character kept by `re.sub(r"[^a-z0-9]", "", ·)`. -/
def isLowerAlnum (c : Char) : Bool :=
  decide ((97 ≤ c.toNat ∧ c.toNat ≤ 122) ∨ (48 ≤ c.toNat ∧ c.toNat ≤ 57))

/-- An ASCII alphanumeric character (either case, or a digit). -/
def isAsciiAlnum (c : Char) : Bool :=
  decide ((97 ≤ c.toNat ∧ c.toNat ≤ 122) ∨ (65 ≤ c.toNat ∧ c.toNat ≤ 90) ∨
          (48 ≤ c.toNat ∧ c.toNat ≤ 57))

/-- The kept characters of `sanitize_bundle_suffix`:
`re.sub(r"[^a-z0-9]", "", name.lower())`. -/
def sanitize_core (s : Text) : Text := (s.map lowerC).filter isLowerAlnum

/-- `sanitize_bundle_suffix(name)` from the source: lowercase, strip every
character outside `[a-z0-9]`, fall back to `"app"` when empty. -/
def sanitize_bundle_suffix (s : Text) : Text :=
  if sanitize_core s = [] then "app".toList else sanitize_core s

/-- A separator character of the split class `[-_]+`. -/
def isSep (c : Char) : Bool := if c = '-' then true else if c = '_' then true else false

/-- Prepend a character to the first field of a split result. -/
def consHead (c : Char) : List Text → List Text
  | [] => [[c]]
  | f :: fs => (c :: f) :: fs

/-- Split on every single occurrence of a separator character. -/
def splitSep : Text → List Text
  | [] => [[]]
  | c :: rest => if isSep c then [] :: splitSep rest else consHead c (splitSep rest)

/-- Drop the empty fields between two adjacent separators, keeping the first
and last fields (so that runs of separators act as one separator, as in
`re.split(r"[-_]+", ·)`). -/
def collapseMid : List Text → List Text
  | [] => []
  | [l] => [l]
  | x :: y :: rest => if x = [] then collapseMid (y :: rest) else x :: collapseMid (y :: rest)

/-- `re.split(r"[-_]+", s)`. -/
def splitRuns (s : Text) : List Text :=
  match splitSep s with
  | [] => [[]]
  | f :: rest => f :: collapseMid rest

/-- Python `str.capitalize`: first character uppercased, the rest lowercased
(ASCII). -/
def capitalizeT : Text → Text
  | [] => []
  | c :: rest => upperC c :: rest.map lowerC

/-- Join a list of texts with a separator (Python `sep.join`). -/
def joinWith (sep : Text) : List Text → Text
  | [] => []
  | [x] => x
  | x :: y :: rest => x ++ sep ++ joinWith sep (y :: rest)

/-- `derive_app_title(slug)` from the source: split on runs of `-`/`_`,
capitalize the nonempty parts, join with spaces, fall back to capitalizing
the whole slug. -/
def derive_app_title (slug : Text) : Text :=
  if joinWith (" ".toList) (((splitRuns slug).filter (fun p => p ≠ [])).map capitalizeT) = []
  then capitalizeT slug
  else joinWith (" ".toList) (((splitRuns slug).filter (fun p => p ≠ [])).map capitalizeT)

/-- `derive_pascal(slug)` from the source: like `derive_app_title` but joined
with no separator. -/
def derive_pascal (slug : Text) : Text :=
  if joinWith [] (((splitRuns slug).filter (fun p => p ≠ [])).map capitalizeT) = []
  then capitalizeT slug
  else joinWith [] (((splitRuns slug).filter (fun p => p ≠ [])).map capitalizeT)

/-- The slug validation `re.fullmatch(r"[a-z][a-z0-9_]*", slug)`. -/
def isSlugTailChar (c : Char) : Bool :=
  decide ((97 ≤ c.toNat ∧ c.toNat ≤ 122) ∨ (48 ≤ c.toNat ∧ c.toNat ≤ 57) ∨ c.toNat = 95)

/-- Validation of `--slug` in `parse_args`. -/
def validSlug : Text → Bool
  | [] => false
  | c :: rest => decide (97 ≤ c.toNat ∧ c.toNat ≤ 122) && rest.all isSlugTailChar

/-- A path relative to the repository root, as a list of segments. -/
abbrev FPath := List Text

/-- The filesystem below the repository root: file contents keyed by path,
plus the set of existing directories. -/
structure FS where
  files : List (FPath × Text)
  dirs : List FPath
deriving DecidableEq

/-- Association-list lookup for file contents. -/
def lookA : List (FPath × Text) → FPath → Option Text
  | [], _ => none
  | (k, v) :: rest, p => if k = p then some v else lookA rest p

/-- Contents of the file at `p`, when it exists. -/
def lookupFile (fs : FS) (p : FPath) : Option Text := lookA fs.files p

/-- `Path.exists()`: a file or a directory lives at `p`. -/
def pathExists (fs : FS) (p : FPath) : Bool :=
  (lookupFile fs p).isSome || memL p fs.dirs

/-- Overwrite the contents at key `p` (`Path.write_text`; the tool only ever
writes to files it has just read, so a missing key is left alone). -/
def writeA : List (FPath × Text) → FPath → Text → List (FPath × Text)
  | [], _, _ => []
  | (k, v) :: rest, p, t => if k = p then (k, t) :: rest else (k, v) :: writeA rest p t

/-- Write `t` to the file at `p`. -/
def writeFile (fs : FS) (p : FPath) (t : Text) : FS :=
  ⟨writeA fs.files p t, fs.dirs⟩

/-- Move a path under `oldP` to live under `newP` instead. -/
def renamePath (oldP newP p : FPath) : FPath :=
  if leadsIn oldP p then newP ++ p.drop oldP.length else p

/-- `Path.rename` on the directory `oldP`: every path under it (and the
directory itself) is re-rooted under `newP`. -/
def renameDir (fs : FS) (oldP newP : FPath) : FS :=
  ⟨fs.files.map (fun e => (renamePath oldP newP e.1, e.2)),
   fs.dirs.map (renamePath oldP newP)⟩

/-- The name of a root-level directory entry. -/
def onlyRootSeg : FPath → Option Text
  | [n] => some n
  | _ => none

/-- Names of the directories directly below the root (`ROOT.iterdir()`
restricted to directories). -/
def rootDirNames (fs : FS) : List Text := fs.dirs.filterMap onlyRootSeg

/-- `path.relative_to(ROOT).as_posix()`: segments joined by `/`. -/
def relPosix (p : FPath) : Text := joinWith ("/".toList) p

/-- Lexicographic comparison of texts by code point (Python string `<=`). -/
def textLe : Text → Text → Bool
  | [], _ => true
  | _ :: _, [] => false
  | a :: as, b :: bs => if a.toNat = b.toNat then textLe as bs else decide (a.toNat < b.toNat)

/-- Insert into a `textLe`-sorted list (used to model Python `sorted`). -/
def insertSorted (x : Text) : List Text → List Text
  | [] => [x]
  | y :: ys => if textLe x y then x :: y :: ys else y :: insertSorted x ys

/-- Python `sorted` on a list of texts (insertion sort; `sorted` is stable
and ascending). -/
def sortTexts : List Text → List Text
  | [] => []
  | x :: xs => insertSorted x (sortTexts xs)

/-- The error taxonomy of the run (`SystemExit` sites, named as in the
spec: `ValidationError`, `NotFoundError`, `ConflictError`). -/
inductive MigError where
  | validation
  | notFound
  | conflict
deriving DecidableEq

/-- `DEFAULT_DIRNAME = "portalis"`. -/
def DEFAULT_DIRNAME : Text := "portalis".toList

/-- The project manifest filename. -/
def pubspecName : Text := "pubspec.yaml".toList

/-- `SKIP_DIRS` from the source. -/
def SKIP_DIRS : List Text :=
  [".git".toList, ".dart_tool".toList, "build".toList, "DerivedData".toList,
   "node_modules".toList, ".gradle".toList, "target".toList]

/-- `TEXT_EXTS` from the source. -/
def TEXT_EXTS : List Text :=
  [".dart".toList, ".rs".toList, ".yaml".toList, ".yml".toList, ".json".toList,
   ".md".toList, ".txt".toList, ".xml".toList, ".gradle".toList, ".kt".toList,
   ".kts".toList, ".swift".toList, ".m".toList, ".mm".toList, ".h".toList,
   ".hpp".toList, ".c".toList, ".cc".toList, ".cpp".toList, ".cmake".toList,
   ".plist".toList, ".xcconfig".toList, ".cfg".toList, ".conf".toList,
   ".ini".toList, ".ps1".toList, ".sh".toList, ".bat".toList, ".toml".toList,
   ".lock".toList, ".properties".toList, ".pbxproj".toList, ".rc".toList,
   ".xcscheme".toList]

/-- `SPECIAL_FILENAMES` from the source. -/
def SPECIAL_FILENAMES : List Text := ["project.pbxproj".toList]

/-- `SCRIPT_PATH`, the tool's own file, relative to the root. -/
def SCRIPT_PATH : FPath := ["scripts".toList, "project_migration.py".toList]

/-- The marker excluded from `rg` result lines (the tool's own source). -/
def MARKER : Text := "scripts/project_migration.py".toList

/-- The mutable context threaded through the run (`@dataclass Context`).
`flutter_dir` is the project directory path; the Python sets are
insertion-ordered duplicate-free lists here. -/
structure Context where
  slug : Text
  app_title : Text
  pascal_name : Text
  flutter_dir : FPath
  current_dir_name : Text
  previous_names : List Text
  bundle_suffix : Text
  previous_bundle_suffixes : List Text
deriving DecidableEq

/-- Python `set.add` on the ordered-list model of a set. -/
def addSetT (l : List Text) (x : Text) : List Text :=
  if memL x l then l else l ++ [x]

/-- `record_change`: append the relative path to the changed-set unless it is
already present. -/
def record_change (ch : List Text) (rel : Text) : List Text :=
  if memL rel ch then ch else ch ++ [rel]

/-- `update_file(path, transform, changed)`: silent no-op when the path does
not exist; otherwise read, transform, and write back plus record only when
the output differs. -/
def update_file (fs : FS) (ch : List Text) (p : FPath) (tr : Text → Text) :
    FS × List Text :=
  match lookupFile fs p with
  | none => (fs, ch)
  | some orig =>
    if tr orig = orig then (fs, ch)
    else (writeFile fs p (tr orig), record_change ch (relPosix p))

/-- Root directories that contain the manifest, in Python `sorted` order
(the candidate list of `locate_flutter_dir`). -/
def rootCandidates (fs : FS) : List Text :=
  (sortTexts (rootDirNames fs)).filter (fun d => pathExists fs [d, pubspecName])

/-- Root directories that contain the manifest, in filesystem order (used to
state the "lexicographically first" property). -/
def manifestDirs (fs : FS) : List Text :=
  (rootDirNames fs).filter (fun d => pathExists fs [d, pubspecName])

/-- `locate_flutter_dir(slug)`: slug-named directory first, then the template
default, then the first sorted root directory containing the manifest. -/
def locate_flutter_dir (fs : FS) (slug : Text) : Except MigError (FPath × Text) :=
  if pathExists fs [slug, pubspecName] then .ok ([slug], slug)
  else if pathExists fs [DEFAULT_DIRNAME, pubspecName] then
    .ok ([DEFAULT_DIRNAME], DEFAULT_DIRNAME)
  else
    match rootCandidates fs with
    | d :: _ => .ok ([d], d)
    | [] => .error .notFound

/-- `parse_args` after argument parsing: slug validation, directory location
and construction of the `Context` (an absent or empty `--app-title` falls
back to the derived title). -/
def build_context (fs : FS) (slug : Text) (titleOpt : Option Text) :
    Except MigError Context :=
  if validSlug slug = false then .error .validation
  else
    match locate_flutter_dir fs slug with
    | .error e => .error e
    | .ok (dir, current) =>
      .ok { slug := slug
            app_title := match titleOpt with | some t => t | none => derive_app_title slug
            pascal_name := derive_pascal slug
            flutter_dir := dir
            current_dir_name := current
            previous_names := addSetT [DEFAULT_DIRNAME] current
            bundle_suffix := sanitize_bundle_suffix slug
            previous_bundle_suffixes :=
              addSetT [sanitize_bundle_suffix DEFAULT_DIRNAME] (sanitize_bundle_suffix current) }

/-- `transform_root` of `update_readmes`. -/
def transform_root (title : Text) (t : Text) : Text :=
  let t1 := replaceAll ("title=\"Portalis\"".toList)
              (("title=\"".toList) ++ title ++ ("\"".toList)) t
  let t2 := replaceFirst ("# Portalis".toList) (("# ".toList) ++ title) t1
  replace_portalis_word t2 title

/-- `transform_flutter` of `update_readmes`. -/
def transform_flutter (title : Text) (t : Text) : Text :=
  replace_portalis_word (replaceFirst ("# Portalis".toList) (("# ".toList) ++ title) t) title

/-- `update_readmes`. -/
def update_readmes (ctx : Context) (fs : FS) (ch : List Text) : FS × List Text :=
  let s1 := update_file fs ch ["README.md".toList] (transform_root ctx.app_title)
  update_file s1.1 s1.2 (ctx.flutter_dir ++ ["README.md".toList]) (transform_flutter ctx.app_title)

/-- One previous-name step of the `update_docs` transform. -/
def docNameStep (slug : Text) (acc : Text) (n : Text) : Text :=
  replaceAll (n ++ (".exe".toList)) (slug ++ (".exe".toList))
    (replaceAll (("`".toList) ++ n ++ ("/`".toList)) (("`".toList) ++ slug ++ ("/`".toList)) acc)

/-- The `update_docs` per-file transform. -/
def doc_transform (title slug : Text) (names : List Text) (t : Text) : Text :=
  names.foldl (docNameStep slug) (replace_portalis_word t title)

/-- `update_docs`: the three files under `doc/`. -/
def update_docs (ctx : Context) (fs : FS) (ch : List Text) : FS × List Text :=
  [["doc".toList, "overview.md".toList],
   ["doc".toList, "setup_guide.md".toList],
   ["doc".toList, "build.md".toList]].foldl
    (fun st p => update_file st.1 st.2 p
      (doc_transform ctx.app_title ctx.slug ctx.previous_names)) (fs, ch)

/-- One previous-name step of the `update_tests_scripts` transform. -/
def testsNameStep (slug : Text) (acc : Text) (n : Text) : Text :=
  replaceAll (("\"$PROJECT_ROOT/../".toList) ++ n ++ ("\"".toList))
    (("\"$PROJECT_ROOT/../".toList) ++ slug ++ ("\"".toList))
    (replaceAll (("\"$ROOT_DIR/".toList) ++ n ++ ("\"".toList))
      (("\"$ROOT_DIR/".toList) ++ slug ++ ("\"".toList))
      (replaceAll (("\"$PROJECT_ROOT/".toList) ++ n ++ ("\"".toList))
        (("\"$PROJECT_ROOT/".toList) ++ slug ++ ("\"".toList)) acc))

/-- The `update_tests_scripts` per-script transform. -/
def tests_transform (title slug : Text) (names : List Text) (t : Text) : Text :=
  replace_portalis_word (names.foldl (testsNameStep slug) t) title

/-- A path matched by `tests_dir.glob("*.sh")`. -/
def isTestsSh : FPath → Bool
  | [d, f] => decide (d = ("tests".toList)) && endsWithT (".sh".toList) f
  | _ => false

/-- `update_tests_scripts`. -/
def update_tests_scripts (ctx : Context) (fs : FS) (ch : List Text) : FS × List Text :=
  if pathExists fs [("tests".toList)] = false then (fs, ch)
  else
    ((fs.files.map Prod.fst).filter isTestsSh).foldl
      (fun st p => update_file st.1 st.2 p
        (tests_transform ctx.app_title ctx.slug ctx.previous_names)) (fs, ch)

/-- The workflow transform of `update_ci`. -/
def ci_workflow_transform (title slug : Text) (names : List Text) (t : Text) : Text :=
  replace_portalis_word
    (names.foldl (fun acc n =>
      replaceAll (("WORKING_DIR: ".toList) ++ n) (("WORKING_DIR: ".toList) ++ slug) acc) t)
    title

/-- A path matched by `actions_dir.glob("*/action.yml")`. -/
def isActionYml : FPath → Bool
  | [a, b, _, d] =>
    decide (a = (".github".toList)) && decide (b = ("actions".toList)) &&
    decide (d = ("action.yml".toList))
  | _ => false

/-- The per-action transform of `update_ci`. -/
def ci_action_transform (title slug pascal : Text) (names : List Text) (t : Text) : Text :=
  replace_portalis_word
    (replaceAll ("Portalis-".toList) (pascal ++ ("-".toList))
      (names.foldl (fun acc n =>
        replaceAll (("default: ".toList) ++ n) (("default: ".toList) ++ slug) acc) t))
    title

/-- `update_ci`. -/
def update_ci (ctx : Context) (fs : FS) (ch : List Text) : FS × List Text :=
  let s1 := update_file fs ch
    [".github".toList, "workflows".toList, "pipeline.yml".toList]
    (ci_workflow_transform ctx.app_title ctx.slug ctx.previous_names)
  if pathExists s1.1 [".github".toList, "actions".toList] = false then s1
  else
    ((s1.1.files.map Prod.fst).filter isActionYml).foldl
      (fun st p => update_file st.1 st.2 p
        (ci_action_transform ctx.app_title ctx.slug ctx.pascal_name ctx.previous_names))
      s1

/-- Whether a character is a space or a tab (the `\s` of the single-line
`^name:\s*{name}\b` manifest pattern). -/
def isSpaceTab (c : Char) : Bool := decide (c.toNat = 32 ∨ c.toNat = 9)

/-- One line of `re.sub(rf"^name:\s*{name}\b", f"name: {slug}", ·, re.MULTILINE)`. -/
def nameLineFix (n slug : Text) (l : Text) : Text :=
  if leadsIn ("name:".toList) l then
    let r2 := (l.drop 5).dropWhile isSpaceTab
    if leadsIn n r2 && boundaryAfter (r2.drop n.length) then
      ("name: ".toList) ++ slug ++ r2.drop n.length
    else l
  else l

/-- Split a text at every newline. -/
def splitOnChar (sep : Char) : Text → List Text
  | [] => [[]]
  | c :: rest => if c = sep then [] :: splitOnChar sep rest else consHead c (splitOnChar sep rest)

/-- The multi-line `name:` substitution, applied line by line. -/
def subNameRegex (n slug : Text) (t : Text) : Text :=
  joinWith ("\n".toList) ((splitOnChar '\n' t).map (nameLineFix n slug))

/-- The pubspec transform of `update_flutter_package`. -/
def pubspec_transform (title slug : Text) (names : List Text) (t : Text) : Text :=
  replace_portalis_word (names.foldl (fun acc n => subNameRegex n slug acc) t) title

/-- The `main.dart` / `widget_test.dart` transform of `update_flutter_package`. -/
def dart_transform (title slug : Text) (names : List Text) (t : Text) : Text :=
  replace_portalis_word
    (names.foldl (fun acc n =>
      replaceAll (("package:".toList) ++ n ++ ("/".toList))
        (("package:".toList) ++ slug ++ ("/".toList)) acc) t)
    title

/-- The `Info.plist` transform. -/
def plist_transform (title : Text) (t : Text) : Text :=
  replaceAll ("<string>Portalis</string>".toList)
    (("<string>".toList) ++ title ++ ("</string>".toList)) t

/-- The `web/index.html` transform. -/
def web_index_transform (title : Text) (t : Text) : Text :=
  replaceAll ("<title>Portalis</title>".toList)
    (("<title>".toList) ++ title ++ ("</title>".toList))
    (replaceAll ("<title>portalis</title>".toList)
      (("<title>".toList) ++ title ++ ("</title>".toList))
      (replaceAll ("content=\"Portalis\"".toList)
        (("content=\"".toList) ++ title ++ ("\"".toList))
        (replaceAll ("content=\"portalis\"".toList)
          (("content=\"".toList) ++ title ++ ("\"".toList)) t)))

/-- The `web/manifest.json` transform. -/
def web_manifest_transform (title : Text) (t : Text) : Text :=
  replaceAll ("\"short_name\": \"portalis\"".toList)
    (("\"short_name\": \"".toList) ++ title ++ ("\"".toList))
    (replaceAll ("\"name\": \"portalis\"".toList)
      (("\"name\": \"".toList) ++ title ++ ("\"".toList)) t)

/-- `update_flutter_package`. -/
def update_flutter_package (ctx : Context) (fs : FS) (ch : List Text) : FS × List Text :=
  let s1 := update_file fs ch (ctx.flutter_dir ++ [pubspecName])
    (pubspec_transform ctx.app_title ctx.slug ctx.previous_names)
  let s2 := update_file s1.1 s1.2 (ctx.flutter_dir ++ ["lib".toList, "main.dart".toList])
    (dart_transform ctx.app_title ctx.slug ctx.previous_names)
  let s3 := update_file s2.1 s2.2 (ctx.flutter_dir ++ ["test".toList, "widget_test.dart".toList])
    (dart_transform ctx.app_title ctx.slug ctx.previous_names)
  let s4 := update_file s3.1 s3.2
    (ctx.flutter_dir ++ ["ios".toList, "Runner".toList, "Info.plist".toList])
    (plist_transform ctx.app_title)
  let s5 := update_file s4.1 s4.2 (ctx.flutter_dir ++ ["web".toList, "index.html".toList])
    (web_index_transform ctx.app_title)
  update_file s5.1 s5.2 (ctx.flutter_dir ++ ["web".toList, "manifest.json".toList])
    (web_manifest_transform ctx.app_title)

/-- The iteration set `{DEFAULT_DIRNAME, old_name}` of the changed-set
rewrite loop in `rename_flutter_directory`. -/
def rewriteNames (old_name : Text) : List Text :=
  if old_name = DEFAULT_DIRNAME then [DEFAULT_DIRNAME] else [DEFAULT_DIRNAME, old_name]

/-- The changed-set entry rewrite of `rename_flutter_directory`: the loop
tests the original entry against each name and overwrites the slot on a
match, so the last matching name wins. -/
def rewriteEntry (old_name slug : Text) (e : Text) : Text :=
  (rewriteNames old_name).foldl
    (fun acc n =>
      if leadsIn (n ++ ("/".toList)) e then
        replaceFirst (n ++ ("/".toList)) (slug ++ ("/".toList)) e
      else acc)
    e

/-- `rename_flutter_directory`.  The result carries the Python process state
at return or at the `SystemExit`: on a conflict the source raises before any
mutation, so the context, filesystem and changed-set come back untouched. -/
def rename_flutter_directory (ctx : Context) (fs : FS) (ch : List Text) :
    Option MigError × Context × FS × List Text :=
  if ctx.current_dir_name = ctx.slug then (none, ctx, fs, ch)
  else if pathExists fs [ctx.slug] then (some .conflict, ctx, fs, ch)
  else
    let fs2 := renameDir fs ctx.flutter_dir [ctx.slug]
    let ch2 := (ch.map (rewriteEntry ctx.current_dir_name ctx.slug))
    let ch3 := record_change ch2 (relPosix [ctx.slug])
    (none,
     { ctx with
        previous_names := addSetT ctx.previous_names ctx.current_dir_name
        previous_bundle_suffixes :=
          addSetT ctx.previous_bundle_suffixes (sanitize_bundle_suffix ctx.current_dir_name)
        flutter_dir := [ctx.slug]
        current_dir_name := ctx.slug },
     fs2, ch3)

/-- The last path segment (`Path.name`). -/
def lastSeg : FPath → Text
  | [] => []
  | [x] => x
  | _ :: y :: rest => lastSeg (y :: rest)

/-- `Path.suffix`: the final extension including the dot; empty when there is
no dot or when the only dot starts a hidden-file name. -/
def fileSuffix (name : Text) : Text :=
  let r := name.reverse
  match r.dropWhile (fun c => decide (c ≠ '.')) with
  | [] => []
  | [_] => []
  | _ :: _ :: _ => '.' :: (r.takeWhile (fun c => decide (c ≠ '.'))).reverse

/-- `should_process(path)`. -/
def should_process (p : FPath) : Bool :=
  if p.any (fun seg => memL seg SKIP_DIRS) then false
  else if memL (lastSeg p) SPECIAL_FILENAMES then true
  else memL (fileSuffix (lastSeg p)) TEXT_EXTS

/-- Apply an ordered list of literal replacement pairs to a text. -/
def applyReps (reps : List (Text × Text)) (t : Text) : Text :=
  reps.foldl (fun acc pr => replaceAll pr.1 pr.2 acc) t

/-- The regular files below `base` seen by `base.rglob("*")` (the rewrites
never create, delete or move files, so the name list is fixed up front). -/
def treeFilePaths (fs : FS) (base : FPath) : List FPath :=
  (fs.files.map Prod.fst).filter (fun p => leadsIn base p && decide (base.length < p.length))

/-- `apply_replacements_in_tree(base, replacements, changed)`. -/
def apply_replacements_in_tree (fs : FS) (ch : List Text) (base : FPath)
    (reps : List (Text × Text)) : FS × List Text :=
  if reps = [] then (fs, ch)
  else
    (treeFilePaths fs base).foldl
      (fun st p =>
        if p = SCRIPT_PATH then st
        else if should_process p = false then st
        else update_file st.1 st.2 p (applyReps reps))
      (fs, ch)

/-- The three replacement pairs generated for one old bundle identifier. -/
def bundleTriple (newB old : Text) : List (Text × Text) :=
  [(old, newB),
   (old ++ (".RunnerTests".toList), newB ++ (".RunnerTests".toList)),
   (old ++ (".backend".toList), newB ++ (".backend".toList))]

/-- The old bundle identifiers: previous suffixes other than the current one. -/
def oldBundles (ctx : Context) : List Text :=
  (ctx.previous_bundle_suffixes.filter (fun s => decide (s ≠ ctx.bundle_suffix))).map
    (fun s => ("com.example.".toList) ++ s)

/-- The replacement list of `update_platform_identifiers`. -/
def platformReps (ctx : Context) : List (Text × Text) :=
  ((oldBundles ctx).map (bundleTriple (("com.example.".toList) ++ ctx.bundle_suffix))).flatten ++
  [("com.portalis.backend".toList,
    ("com.".toList) ++ ctx.bundle_suffix ++ (".backend".toList))]

/-- The `AndroidManifest.xml` label transform. -/
def manifest_transform (title : Text) (t : Text) : Text :=
  replaceAll ("android:label=\"portalis\"".toList)
    (("android:label=\"".toList) ++ title ++ ("\"".toList)) t

/-- The `build.gradle` transform. -/
def gradle_transform (newB : Text) (oldBs : List Text) (t : Text) : Text :=
  oldBs.foldl (fun acc old =>
    replaceAll (("\"".toList) ++ old ++ ("\"".toList))
      (("\"".toList) ++ newB ++ ("\"".toList)) acc) t

/-- `app/src/main/<lang>/com/example` below the android directory. -/
def pkgBase (ctx : Context) (lang : Text) : FPath :=
  ctx.flutter_dir ++ ["android".toList, "app".toList, "src".toList, "main".toList,
    lang, "com".toList, "example".toList]

/-- The inner loop of `update_package_dirs`: the first previous bundle suffix
(other than the current one) whose directory exists. -/
def findPrevSuffixDir (fs : FS) (pb : FPath) (bundle : Text) : List Text → Option Text
  | [] => none
  | s :: rest =>
    if s = bundle then findPrevSuffixDir fs pb bundle rest
    else if pathExists fs (pb ++ [s]) then some s
    else findPrevSuffixDir fs pb bundle rest

/-- One language directory of `update_package_dirs`. -/
def update_package_dirs_lang (ctx : Context) (fs : FS) (ch : List Text) (lang : Text) :
    FS × List Text :=
  if pathExists fs (pkgBase ctx lang) = false then (fs, ch)
  else if pathExists fs (pkgBase ctx lang ++ [ctx.bundle_suffix]) then (fs, ch)
  else
    match findPrevSuffixDir fs (pkgBase ctx lang) ctx.bundle_suffix
        ctx.previous_bundle_suffixes with
    | none => (fs, ch)
    | some s =>
      (renameDir fs (pkgBase ctx lang ++ [s]) (pkgBase ctx lang ++ [ctx.bundle_suffix]),
       record_change ch (relPosix (pkgBase ctx lang ++ [ctx.bundle_suffix])))

/-- `update_package_dirs(android_dir)`: kotlin then java. -/
def update_package_dirs (ctx : Context) (fs : FS) (ch : List Text) : FS × List Text :=
  let s1 := update_package_dirs_lang ctx fs ch ("kotlin".toList)
  update_package_dirs_lang ctx s1.1 s1.2 ("java".toList)

/-- `update_platform_identifiers`. -/
def update_platform_identifiers (ctx : Context) (fs : FS) (ch : List Text) : FS × List Text :=
  let reps := platformReps ctx
  let s1 := [("android".toList), ("ios".toList), ("macos".toList), ("linux".toList),
             ("windows".toList)].foldl
    (fun st b =>
      if pathExists st.1 (ctx.flutter_dir ++ [b]) then
        apply_replacements_in_tree st.1 st.2 (ctx.flutter_dir ++ [b]) reps
      else st)
    (fs, ch)
  let s2 := update_file s1.1 s1.2
    (ctx.flutter_dir ++ ["android".toList, "app".toList, "src".toList, "main".toList,
      "AndroidManifest.xml".toList])
    (manifest_transform ctx.app_title)
  let s3 := update_file s2.1 s2.2
    (ctx.flutter_dir ++ ["android".toList, "app".toList, "build.gradle".toList])
    (gradle_transform (("com.example.".toList) ++ ctx.bundle_suffix) (oldBundles ctx))
  update_package_dirs ctx s3.1 s3.2

/-- The replacement list of `apply_global_replacements`. -/
def globalReps (ctx : Context) : List (Text × Text) :=
  [(("Portalis".toList), ctx.app_title), (("PORTALIS".toList), ctx.app_title.map upperC)] ++
  (ctx.previous_names.map (fun n =>
    [(n, ctx.slug), (n.map upperC, ctx.slug.map upperC)])).flatten ++
  ((oldBundles ctx).map (bundleTriple (("com.example.".toList) ++ ctx.bundle_suffix))).flatten ++
  [("portalis.app".toList, ctx.slug ++ (".app".toList))]

/-- `apply_global_replacements`: the tree-wide sweep from the root. -/
def apply_global_replacements (ctx : Context) (fs : FS) (ch : List Text) : FS × List Text :=
  apply_replacements_in_tree fs ch [] (globalReps ctx)

/-- The external search tool: a global availability flag and, per pattern,
the return code and raw standard output of `rg <pattern>` at the root. -/
structure RgEnv where
  available : Bool
  run : Text → Nat × Text

/-- Whitespace stripped by Python `str.strip`. -/
def isWS (c : Char) : Bool := decide (c.toNat = 32 ∨ c.toNat = 9 ∨ c.toNat = 10 ∨ c.toNat = 13)

/-- Python `str.strip()`. -/
def stripWS (t : Text) : Text := ((t.dropWhile isWS).reverse.dropWhile isWS).reverse

/-- Python `str.splitlines()` for newline-separated text (after `strip` there
is no trailing newline, so splitting at every newline is exact). -/
def splitlinesPy (t : Text) : List Text :=
  if t = [] then [] else splitOnChar '\n' t

/-- The lines `rg` reports for a pattern that survive the self-exclusion
filter (`rg` exits 0 exactly when there is at least one match). -/
def survivingLines (env : RgEnv) (p : Text) : List Text :=
  (if (env.run p).1 = 0 then splitlinesPy (stripWS (env.run p).2) else []).filter
    (fun l => !(containsSub MARKER l))

/-- `find_remaining_markers(patterns)`: an insertion-ordered mapping from
pattern to surviving result lines. -/
def find_remaining_markers (env : RgEnv) : List Text → List (Text × List Text)
  | [] => []
  | p :: rest =>
    if env.available = false then []
    else
      if (env.run p).1 = 0 ∧ (env.run p).2 ≠ [] then
        if (splitlinesPy (stripWS (env.run p).2)).filter (fun l => !(containsSub MARKER l)) ≠ []
        then
          (p, (splitlinesPy (stripWS (env.run p).2)).filter (fun l => !(containsSub MARKER l)))
            :: find_remaining_markers env rest
        else find_remaining_markers env rest
      else find_remaining_markers env rest

/-- One full run of `main` up to the leftover report: context construction
followed by the eight rewrite passes, returning the final filesystem and
changed-set (or the fatal error). -/
def runOnce (fs : FS) (slug : Text) (titleOpt : Option Text) :
    Except MigError (FS × List Text) :=
  match build_context fs slug titleOpt with
  | .error e => .error e
  | .ok ctx =>
    let s1 := update_readmes ctx fs []
    let s2 := update_docs ctx s1.1 s1.2
    let s3 := update_tests_scripts ctx s2.1 s2.2
    let s4 := update_ci ctx s3.1 s3.2
    let s5 := update_flutter_package ctx s4.1 s4.2
    match rename_flutter_directory ctx s5.1 s5.2 with
    | (some e, _, _, _) => .error e
    | (none, ctx2, fs6, ch6) =>
      let s7 := update_platform_identifiers ctx2 fs6 ch6
      let s8 := apply_global_replacements ctx2 s7.1 s7.2
      .ok (s8.1, s8.2)

/-- Whether a run completed without a fatal error. -/
def isOkRun (e : Except MigError (FS × List Text)) : Bool :=
  match e with | .ok _ => true | .error _ => false

/-- A fresh template checkout: the default project directory with its
manifest, and the root readme. -/
def fsC1 : FS :=
  ⟨[(["README.md".toList], "# Portalis\n".toList),
    (["portalis".toList, "pubspec.yaml".toList], "name: portalis\n".toList)],
   [["portalis".toList]]⟩

/-- The slug of the non-idempotent scenario: its derived title
`Portalis Plus` contains the branded word. -/
def slugC1 : Text := "portalis_plus".toList

/-- First run of the pipeline on the fresh checkout. -/
def runC1a : Except MigError (FS × List Text) := runOnce fsC1 slugC1 none

/-- The filesystem after the first run. -/
def fsC1b : FS := match runC1a with | .ok pr => pr.1 | .error _ => fsC1

/-- Second run of the pipeline, with identical arguments. -/
def runC1b : Except MigError (FS × List Text) := runOnce fsC1b slugC1 none

/-- The changed-set reported by the second run. -/
def chC1b : List Text := match runC1b with | .ok pr => pr.2 | .error _ => []

/-- The filesystem after the second run. -/
def fsC1c : FS := match runC1b with | .ok pr => pr.1 | .error _ => fsC1b

/-- A context after a completed migration to the slug `newapp` (as built by
`build_context` on a renamed checkout). -/
def ctxC2 : Context :=
  { slug := "newapp".toList
    app_title := "Newapp".toList
    pascal_name := "Newapp".toList
    flutter_dir := ["newapp".toList]
    current_dir_name := "newapp".toList
    previous_names := ["portalis".toList, "newapp".toList]
    bundle_suffix := "newapp".toList
    previous_bundle_suffixes := ["portalis".toList, "newapp".toList] }

/-- A tree holding a note that mentions the longer identifier
`PortalisPlus`. -/
def fsC2 : FS :=
  ⟨[(["notes.md".toList], "see PortalisPlus docs".toList)], []⟩

/-- A context whose target slug is already taken by another directory. -/
def ctxW3 : Context :=
  { slug := "taken".toList
    app_title := "Taken".toList
    pascal_name := "Taken".toList
    flutter_dir := ["portalis".toList]
    current_dir_name := "portalis".toList
    previous_names := ["portalis".toList]
    bundle_suffix := "taken".toList
    previous_bundle_suffixes := ["portalis".toList, "taken".toList] }

/-- A filesystem where both the project directory and an unrelated `taken`
directory exist at the root. -/
def fsW3 : FS :=
  ⟨[(["portalis".toList, "pubspec.yaml".toList], "name: portalis\n".toList)],
   [["portalis".toList], ["taken".toList]]⟩

/-- A context in mid-run, about to rename `portalis` to `my_app`. -/
def ctxW5 : Context :=
  { slug := "my_app".toList
    app_title := "My App".toList
    pascal_name := "MyApp".toList
    flutter_dir := ["portalis".toList]
    current_dir_name := "portalis".toList
    previous_names := ["portalis".toList]
    bundle_suffix := "myapp".toList
    previous_bundle_suffixes := ["portalis".toList, "myapp".toList] }

/-- The filesystem just before the rename in that run. -/
def fsW5 : FS :=
  ⟨[(["README.md".toList], "# My App\n".toList),
    (["portalis".toList, "pubspec.yaml".toList], "name: my_app\n".toList)],
   [["portalis".toList]]⟩

/-- The changed-set accumulated before the rename in that run. -/
def chW5 : List Text := ["README.md".toList, "portalis/pubspec.yaml".toList]

/-- A context renaming a twice-renamed project (`legacy`) to `newapp`. -/
def ctxX5 : Context :=
  { slug := "newapp".toList
    app_title := "Newapp".toList
    pascal_name := "Newapp".toList
    flutter_dir := ["legacy".toList]
    current_dir_name := "legacy".toList
    previous_names := ["portalis".toList, "legacy".toList]
    bundle_suffix := "newapp".toList
    previous_bundle_suffixes := ["portalis".toList, "legacy".toList] }

/-- A filesystem whose project directory is `legacy`. -/
def fsX5 : FS :=
  ⟨[(["legacy".toList, "pubspec.yaml".toList], "name: newapp\n".toList)],
   [["legacy".toList]]⟩

/-- A duplicate-free changed-set holding one entry under the template default
prefix and one under the current directory prefix. -/
def chX5 : List Text := ["portalis/a.md".toList, "legacy/a.md".toList]

/-- The changed-set produced by the rename on that state. -/
def chX5after : List Text := (rename_flutter_directory ctxX5 fsX5 chX5).2.2.2

/-- A filesystem with two root directories holding manifests and neither a
slug-named nor a default-named project directory. -/
def fsW6 : FS :=
  ⟨[(["bb".toList, "pubspec.yaml".toList], "name: bb\n".toList),
    (["aa".toList, "pubspec.yaml".toList], "name: aa\n".toList)],
   [["bb".toList], ["aa".toList]]⟩

/-- An empty root: no directory contains the manifest. -/
def fsW6e : FS := ⟨[(["README.md".toList], "# Portalis\n".toList)], []⟩

/-- A search environment: `rg` is installed, the pattern `Portalis` matches a
readme line and a line of the tool's own source, and `portalis` finds
nothing. -/
def envW8 : RgEnv :=
  { available := true
    run := fun p =>
      if p = ("Portalis".toList) then
        (0, "README.md:# Portalis\nscripts/project_migration.py:WORD_PORTALIS\n".toList)
      else (1, []) }

/-- A context whose android package directory is already named for the
current bundle suffix. -/
def ctxW10 : Context :=
  { slug := "newapp".toList
    app_title := "Newapp".toList
    pascal_name := "Newapp".toList
    flutter_dir := ["newapp".toList]
    current_dir_name := "newapp".toList
    previous_names := ["portalis".toList, "newapp".toList]
    bundle_suffix := "newapp".toList
    previous_bundle_suffixes := ["portalis".toList, "newapp".toList] }

/-- The kotlin package tree of that context, already migrated: a directory
for the current bundle suffix exists next to the old one. -/
def fsW10 : FS :=
  ⟨[],
   [["newapp".toList], pkgBase ctxW10 ("kotlin".toList),
    pkgBase ctxW10 ("kotlin".toList) ++ ["newapp".toList],
    pkgBase ctxW10 ("kotlin".toList) ++ ["portalis".toList]]⟩

theorem memL_iff {α : Type} [DecidableEq α] (x : α) (l : List α) :
    memL x l = true ↔ x ∈ l := by
  induction l with
  | nil => simp [memL]
  | cons y rest ih => by_cases h : x = y <;> simp [memL, h, ih]

theorem nodup_concat {α : Type} {l : List α} {r : α}
    (hm : r ∉ l) (h : l.Nodup) : (l ++ [r]).Nodup := by
  induction l with
  | nil => simp
  | cons a as ih =>
    rw [List.cons_append, List.nodup_cons] at *
    refine ⟨?_, ih (fun hr => hm (List.mem_cons_of_mem a hr)) h.2⟩
    intro hmem
    rcases List.mem_append.mp hmem with h1 | h2
    · exact h.1 h1
    · rw [List.mem_singleton] at h2
      subst h2
      exact hm (List.mem_cons_self a as)

theorem record_change_of_mem {ch : List Text} {rel : Text} (h : rel ∈ ch) :
    record_change ch rel = ch := by
  simp [record_change, (memL_iff rel ch).mpr h]

theorem record_change_of_not_mem {ch : List Text} {rel : Text} (h : rel ∉ ch) :
    record_change ch rel = ch ++ [rel] := by
  have h2 : memL rel ch = false := by
    cases hq : memL rel ch
    · rfl
    · exact absurd ((memL_iff rel ch).mp hq) h
  simp [record_change, h2]

theorem record_change_nodup {ch : List Text} {rel : Text} (h : ch.Nodup) :
    (record_change ch rel).Nodup := by
  by_cases hm : rel ∈ ch
  · rw [record_change_of_mem hm]; exact h
  · rw [record_change_of_not_mem hm]; exact nodup_concat hm h

theorem record_change_mem {ch : List Text} {rel : Text} :
    rel ∈ record_change ch rel := by
  by_cases hm : rel ∈ ch
  · rw [record_change_of_mem hm]; exact hm
  · rw [record_change_of_not_mem hm]; exact List.mem_append_right ch (List.mem_singleton.mpr rfl)

theorem record_change_count {ch : List Text} {rel : Text} (h : ch.Nodup) :
    @List.count Text instBEqOfDecidableEq rel (record_change ch rel) = 1 :=
  List.count_eq_one_of_mem (record_change_nodup h) record_change_mem

theorem wordSubGo_of_no_occ (word rep : Text) :
    ∀ (t : Text) (prevW : Bool), hasWordOcc word prevW t = false →
      wordSubGo word rep t.length prevW t = t := by
  intro t
  induction t with
  | nil => intro prevW _; rfl
  | cons c rest ih =>
    intro prevW h
    have hm : matchAt word prevW (c :: rest) = false := by
      cases hq : matchAt word prevW (c :: rest)
      · rfl
      · rw [hasWordOcc, hq] at h
        simp at h
    rw [hasWordOcc, hm] at h
    simp at h
    show wordSubGo word rep (rest.length + 1) prevW (c :: rest) = c :: rest
    rw [wordSubGo, hm]
    simp [ih (isWordChar c) h]

theorem replaceFirst_of_leadsIn {pat rep s : Text}
    (hp : pat ≠ []) (h : leadsIn pat s = true) :
    replaceFirst pat rep s = rep ++ s.drop pat.length := by
  cases s with
  | nil =>
    cases pat with
    | nil => exact absurd rfl hp
    | cons a as => simp [leadsIn] at h
  | cons c rest => simp [replaceFirst, h]

theorem textLe_refl (a : Text) : textLe a a = true := by
  induction a with
  | nil => rfl
  | cons c rest ih => simp [textLe, ih]

theorem textLe_total (a b : Text) : textLe a b = true ∨ textLe b a = true := by
  induction a generalizing b with
  | nil => left; rfl
  | cons c as ih =>
    cases b with
    | nil => right; rfl
    | cons d bs =>
      by_cases h : c.toNat = d.toNat
      · rcases ih bs with h3 | h3
        · left
          simp only [textLe]
          rw [if_pos h]
          exact h3
        · right
          simp only [textLe]
          rw [if_pos (Eq.symm h)]
          exact h3
      · rcases Nat.lt_or_ge c.toNat d.toNat with h3 | h3
        · left
          simp only [textLe]
          rw [if_neg h]
          exact decide_eq_true h3
        · have h4 : d.toNat < c.toNat := Nat.lt_of_le_of_ne h3 (fun e => h (Eq.symm e))
          right
          simp only [textLe]
          rw [if_neg (fun e => h (Eq.symm e))]
          exact decide_eq_true h4

theorem textLe_trans {a b c : Text} (h1 : textLe a b = true) (h2 : textLe b c = true) :
    textLe a c = true := by
  induction a generalizing b c with
  | nil => rfl
  | cons x as ih =>
    cases b with
    | nil => simp [textLe] at h1
    | cons y bs =>
      cases c with
      | nil => simp [textLe] at h2
      | cons z cs =>
        simp only [textLe] at h1 h2 ⊢
        by_cases hxy : x.toNat = y.toNat
        · rw [if_pos hxy] at h1
          by_cases hyz : y.toNat = z.toNat
          · rw [if_pos hyz] at h2
            rw [if_pos (hxy.trans hyz)]
            exact ih h1 h2
          · rw [if_neg hyz] at h2
            have hlt : y.toNat < z.toNat := of_decide_eq_true h2
            have hxz : x.toNat ≠ z.toNat := by omega
            rw [if_neg hxz]
            exact decide_eq_true (by omega)
        · rw [if_neg hxy] at h1
          have hlt1 : x.toNat < y.toNat := of_decide_eq_true h1
          by_cases hyz : y.toNat = z.toNat
          · have hxz : x.toNat ≠ z.toNat := by omega
            rw [if_neg hxz]
            exact decide_eq_true (by omega)
          · rw [if_neg hyz] at h2
            have hlt2 : y.toNat < z.toNat := of_decide_eq_true h2
            have hxz : x.toNat ≠ z.toNat := by omega
            rw [if_neg hxz]
            exact decide_eq_true (by omega)

theorem mem_insertSorted {x z : Text} : ∀ {l : List Text},
    z ∈ insertSorted x l ↔ z = x ∨ z ∈ l := by
  intro l
  induction l with
  | nil => simp [insertSorted]
  | cons y ys ih =>
    rw [insertSorted]
    by_cases h : textLe x y = true
    · rw [if_pos h]
      simp [List.mem_cons]
    · rw [if_neg h]
      simp only [List.mem_cons, ih]
      tauto

theorem pairwise_insertSorted {x : Text} {l : List Text}
    (h : l.Pairwise (fun a b => textLe a b = true)) :
    (insertSorted x l).Pairwise (fun a b => textLe a b = true) := by
  induction l with
  | nil => simp [insertSorted]
  | cons y ys ih =>
    rw [insertSorted]
    rw [List.pairwise_cons] at h
    by_cases hxy : textLe x y = true
    · rw [if_pos hxy, List.pairwise_cons]
      constructor
      · intro b hb
        rcases List.mem_cons.mp hb with h1 | h2
        · subst h1; exact hxy
        · exact textLe_trans hxy (h.1 b h2)
      · exact List.pairwise_cons.mpr h
    · rw [if_neg hxy]
      have hyx : textLe y x = true := by
        rcases textLe_total x y with h1 | h1
        · exact absurd h1 hxy
        · exact h1
      rw [List.pairwise_cons]
      constructor
      · intro b hb
        rcases mem_insertSorted.mp hb with h1 | h2
        · subst h1; exact hyx
        · exact h.1 b h2
      · exact ih h.2

theorem pairwise_sortTexts (l : List Text) :
    (sortTexts l).Pairwise (fun a b => textLe a b = true) := by
  induction l with
  | nil => simp [sortTexts]
  | cons x xs ih =>
    rw [sortTexts]
    exact pairwise_insertSorted ih

theorem mem_sortTexts {z : Text} : ∀ {l : List Text}, z ∈ sortTexts l ↔ z ∈ l := by
  intro l
  induction l with
  | nil => simp [sortTexts]
  | cons x xs ih =>
    rw [sortTexts, mem_insertSorted, ih]
    simp [List.mem_cons]

theorem mem_rootCandidates {fs : FS} {d : Text} :
    d ∈ rootCandidates fs ↔ d ∈ manifestDirs fs := by
  unfold rootCandidates manifestDirs
  rw [List.mem_filter, List.mem_filter, mem_sortTexts]

theorem rootCandidates_head_min {fs : FS} {d : Text} {rest : List Text}
    (h : rootCandidates fs = d :: rest) :
    ∀ x ∈ manifestDirs fs, textLe d x = true := by
  intro x hx
  have hp : (rootCandidates fs).Pairwise (fun a b => textLe a b = true) :=
    List.Pairwise.filter _ (pairwise_sortTexts _)
  rw [h] at hp
  have hx2 : x ∈ rootCandidates fs := mem_rootCandidates.mpr hx
  rw [h] at hx2
  rcases List.mem_cons.mp hx2 with h1 | h2
  · subst h1; exact textLe_refl x
  · exact List.rel_of_pairwise_cons hp h2

theorem leadsIn_append {α : Type} [DecidableEq α] (a b : List α) :
    leadsIn a (a ++ b) = true := by
  induction a with
  | nil => rfl
  | cons x xs ih => simp [leadsIn, ih]

theorem renamePath_eq_iff {oldP newP p k : FPath}
    (h1 : leadsIn oldP p = false) (h2 : leadsIn newP p = false) :
    renamePath oldP newP k = p ↔ k = p := by
  constructor
  · intro he
    by_cases hk : leadsIn oldP k = true
    · rw [renamePath, if_pos hk] at he
      rw [← he, leadsIn_append] at h2
      exact absurd h2 (by simp)
    · rw [renamePath, if_neg hk] at he
      exact he
  · intro he
    subst he
    rw [renamePath, if_neg (by simp [h1])]

theorem lookA_rename {oldP newP p : FPath}
    (h1 : leadsIn oldP p = false) (h2 : leadsIn newP p = false) :
    ∀ l : List (FPath × Text),
      lookA (l.map (fun e => (renamePath oldP newP e.1, e.2))) p = lookA l p := by
  intro l
  induction l with
  | nil => rfl
  | cons e rest ih =>
    rw [List.map_cons]
    simp only [lookA]
    by_cases hk : e.1 = p
    · rw [if_pos ((renamePath_eq_iff h1 h2).mpr hk), if_pos hk]
    · rw [if_neg (fun he => hk ((renamePath_eq_iff h1 h2).mp he)), if_neg hk]
      exact ih

theorem memL_rename {oldP newP p : FPath}
    (h1 : leadsIn oldP p = false) (h2 : leadsIn newP p = false) :
    ∀ l : List FPath, memL p (l.map (renamePath oldP newP)) = memL p l := by
  intro l
  induction l with
  | nil => rfl
  | cons q rest ih =>
    rw [List.map_cons]
    simp only [memL]
    by_cases hq : p = q
    · rw [if_pos (((renamePath_eq_iff h1 h2).mpr hq.symm).symm), if_pos hq]
    · rw [if_neg (fun he => hq (((renamePath_eq_iff h1 h2).mp he.symm).symm)),
         if_neg hq]
      exact ih

theorem renameDir_frame (fs : FS) (oldP newP p : FPath)
    (h1 : leadsIn oldP p = false) (h2 : leadsIn newP p = false) :
    lookupFile (renameDir fs oldP newP) p = lookupFile fs p ∧
    memL p (renameDir fs oldP newP).dirs = memL p fs.dirs := by
  constructor
  · exact lookA_rename h1 h2 fs.files
  · exact memL_rename h1 h2 fs.dirs

theorem findPrev_some {fs : FS} {pb : FPath} {bundle : Text} :
    ∀ {l : List Text} {s : Text}, findPrevSuffixDir fs pb bundle l = some s →
      ∃ l1 l2, l.filter (fun x => decide (x ≠ bundle)) = l1 ++ s :: l2 ∧
        (∀ x ∈ l1, pathExists fs (pb ++ [x]) = false) ∧
        pathExists fs (pb ++ [s]) = true ∧ s ≠ bundle := by
  intro l
  induction l with
  | nil =>
    intro s h
    simp [findPrevSuffixDir] at h
  | cons x rest ih =>
    intro s h
    rw [findPrevSuffixDir] at h
    by_cases hx : x = bundle
    · rw [if_pos hx] at h
      rcases ih h with ⟨l1, l2, he, ha, hb, hc⟩
      refine ⟨l1, l2, ?_, ha, hb, hc⟩
      rw [List.filter_cons]
      have hd : decide (x ≠ bundle) = false := by simp [hx]
      rw [hd]
      simpa using he
    · rw [if_neg hx] at h
      by_cases hex : pathExists fs (pb ++ [x]) = true
      · rw [if_pos hex] at h
        injection h with h
        subst h
        exact ⟨[], rest.filter (fun y => decide (y ≠ bundle)),
               by simp [List.filter_cons, hx], by simp, hex, hx⟩
      · rw [if_neg hex] at h
        rcases ih h with ⟨l1, l2, he, ha, hb, hc⟩
        refine ⟨x :: l1, l2, ?_, ?_, hb, hc⟩
        · rw [List.filter_cons]
          have hd : decide (x ≠ bundle) = true := by simp [hx]
          rw [hd]
          rw [if_pos rfl, he]
          rfl
        · intro y hy
          rcases List.mem_cons.mp hy with h5 | h5
          · subst h5
            cases hq : pathExists fs (pb ++ [y])
            · rfl
            · exact absurd hq hex
          · exact ha y h5

theorem lowerC_alnum (c : Char) : isLowerAlnum (lowerC c) = isAsciiAlnum c := by
  have key : ∀ n : Nat, 65 ≤ n → n ≤ 90 → (Char.ofNat (n + 32)).toNat = n + 32 := by
    intro n hn1 hn2
    interval_cases n <;> rfl
  unfold lowerC isLowerAlnum isAsciiAlnum
  by_cases h : 65 ≤ c.toNat ∧ c.toNat ≤ 90
  · rw [if_pos h, key c.toNat h.1 h.2, decide_eq_decide]
    omega
  · rw [if_neg h, decide_eq_decide]
    omega

theorem rewriteEntry_char (old slug e : Text) :
    rewriteEntry old slug e =
      (if leadsIn (old ++ ("/".toList)) e = true then
         (slug ++ ("/".toList)) ++ e.drop (old ++ ("/".toList)).length
       else if leadsIn (DEFAULT_DIRNAME ++ ("/".toList)) e = true then
         (slug ++ ("/".toList)) ++ e.drop (DEFAULT_DIRNAME ++ ("/".toList)).length
       else e) := by
  have hne : ∀ n : Text, n ++ ("/".toList) ≠ [] := by
    intro n
    simp
  unfold rewriteEntry rewriteNames
  by_cases hod : old = DEFAULT_DIRNAME
  · subst hod
    rw [if_pos rfl]
    simp only [List.foldl]
    by_cases hp : leadsIn (DEFAULT_DIRNAME ++ ("/".toList)) e = true
    · rw [if_pos hp, if_pos hp, replaceFirst_of_leadsIn (hne DEFAULT_DIRNAME) hp]
    · rw [if_neg hp, if_neg hp, if_neg hp]
  · rw [if_neg hod]
    simp only [List.foldl]
    by_cases hpo : leadsIn (old ++ ("/".toList)) e = true
    · rw [if_pos hpo, if_pos hpo, replaceFirst_of_leadsIn (hne old) hpo]
    · rw [if_neg hpo, if_neg hpo]
      by_cases hpd : leadsIn (DEFAULT_DIRNAME ++ ("/".toList)) e = true
      · rw [if_pos hpd, if_pos hpd, replaceFirst_of_leadsIn (hne DEFAULT_DIRNAME) hpd]
      · rw [if_neg hpd, if_neg hpd]

theorem all_of_filter {α : Type} (q : α → Bool) (l : List α) :
    ((l.filter q).all q) = true := by
  rw [List.all_eq_true]
  intro a ha
  exact (List.mem_filter.mp ha).2

theorem find_keys_sub {env : RgEnv} : ∀ {ps : List Text} {q : Text} {ls : List Text},
    (q, ls) ∈ find_remaining_markers env ps → q ∈ ps := by
  intro ps
  induction ps with
  | nil =>
    intro q ls h
    simp [find_remaining_markers] at h
  | cons p rest ih =>
    intro q ls h
    rw [find_remaining_markers] at h
    by_cases ha : env.available = false
    · rw [if_pos ha] at h
      cases h
    · rw [if_neg ha] at h
      by_cases hc : (env.run p).1 = 0 ∧ (env.run p).2 ≠ []
      · rw [if_pos hc] at h
        by_cases hl : (splitlinesPy (stripWS (env.run p).2)).filter
            (fun l => !(containsSub MARKER l)) ≠ []
        · rw [if_pos hl] at h
          rcases List.mem_cons.mp h with h1 | h2
          · have : q = p := congrArg Prod.fst h1
            rw [this]
            exact List.mem_cons_self p rest
          · exact List.mem_cons_of_mem p (ih h2)
        · rw [if_neg hl] at h
          exact List.mem_cons_of_mem p (ih h)
      · rw [if_neg hc] at h
        exact List.mem_cons_of_mem p (ih h)

theorem find_keys_mem {env : RgEnv} {ps : List Text} {q : Text}
    (hm : memL q ((find_remaining_markers env ps).map Prod.fst) = true) : q ∈ ps := by
  rcases List.mem_map.mp ((memL_iff q _).mp hm) with ⟨x, hx, hxq⟩
  have hx2 : (q, x.2) ∈ find_remaining_markers env ps := by
    rw [← hxq]
    exact hx
  exact find_keys_sub hx2

set_option maxRecDepth 8000

/-- C1: the claim says rerunning the full pipeline with identical arguments
writes no file and ends with an empty changed-set.  The code violates its own
"designed to be idempotent" contract: with the valid slug `portalis_plus`
(derived title `Portalis Plus`), the second identical run rewrites the root
readme again (each run appends another ` Plus` through the literal heading
replacement, the word-boundary replacement and the global sweep) and reports
a non-empty changed-set.  This theorem evaluates the modelled pipeline at
that failing input. -/
theorem second_run_not_idempotent :
    isOkRun runC1a = true ∧ isOkRun runC1b = true ∧ chC1b ≠ [] ∧
    lookupFile fsC1c ["README.md".toList] ≠ lookupFile fsC1b ["README.md".toList] := by
  decide

/-- C2 (amended): the dedicated helper `replace_portalis_word`, used by the
per-file passes, is word-boundary aware: it leaves any text without a
word-boundary occurrence of `Portalis` unchanged, so occurrences embedded in
longer identifiers such as `PortalisPlus` are never altered by it.  (The
final global sweep, by contrast, replaces the bare word as a literal
substring; see the counterexample.) -/
theorem replace_portalis_word_boundary_aware (t r : Text)
    (h : hasWordOcc portalisWord false t = false) :
    replace_portalis_word t r = t :=
  wordSubGo_of_no_occ portalisWord r t false h

theorem replace_portalis_word_boundary_aware_witness :
    replace_portalis_word ("about PortalisPlus usage".toList) ("My App".toList)
      = ("about PortalisPlus usage".toList) :=
  replace_portalis_word_boundary_aware ("about PortalisPlus usage".toList)
    ("My App".toList) (by decide)

/-- C2 counterexample: the claim says replacing the word `Portalis` never
alters an occurrence embedded inside a longer identifier in any pass.  The
global sweep (`apply_global_replacements`) replaces `Portalis` as a literal
substring: on a tree containing `PortalisPlus` it rewrites the file to
`NewappPlus` and records it in the changed-set. -/
theorem global_sweep_alters_embedded_word :
    (apply_global_replacements ctxC2 fsC2 []).1.files
      = [(["notes.md".toList], "see NewappPlus docs".toList)] ∧
    (apply_global_replacements ctxC2 fsC2 []).2 = ["notes.md".toList] := by
  decide

/-- C3: when the current directory name differs from the slug and a path
named `slug` already exists at the root, `rename_flutter_directory` fails
with a `ConflictError` (`SystemExit` in the source) and returns with the
context, the filesystem and the changed-set untouched — the source raises
before executing any mutation. -/
theorem rename_conflict_aborts (ctx : Context) (fs : FS) (ch : List Text)
    (h1 : ctx.current_dir_name ≠ ctx.slug) (h2 : pathExists fs [ctx.slug] = true) :
    rename_flutter_directory ctx fs ch = (some MigError.conflict, ctx, fs, ch) := by
  unfold rename_flutter_directory
  rw [if_neg h1, if_pos h2]

theorem rename_conflict_aborts_witness :
    rename_flutter_directory ctxW3 fsW3 [] = (some MigError.conflict, ctxW3, fsW3, []) :=
  rename_conflict_aborts ctxW3 fsW3 [] (by decide) (by decide)

/-- C4: `update_file` is a no-op when the path is missing or when the
transform fixes the text; otherwise it writes the transformed text and
records the relative path exactly once (the changed-set stays duplicate-free
and contains the path). -/
theorem update_file_contract (fs : FS) (ch : List Text) (p : FPath) (tr : Text → Text)
    (hnd : ch.Nodup) :
    (lookupFile fs p = none → update_file fs ch p tr = (fs, ch)) ∧
    (∀ orig, lookupFile fs p = some orig → tr orig = orig →
        update_file fs ch p tr = (fs, ch)) ∧
    (∀ orig, lookupFile fs p = some orig → tr orig ≠ orig →
        update_file fs ch p tr
          = (writeFile fs p (tr orig), record_change ch (relPosix p)) ∧
        relPosix p ∈ (update_file fs ch p tr).2 ∧
        @List.count Text instBEqOfDecidableEq (relPosix p) (update_file fs ch p tr).2 = 1 ∧
        (update_file fs ch p tr).2.Nodup) := by
  refine ⟨?_, ?_, ?_⟩
  · intro h
    unfold update_file
    rw [h]
  · intro orig h heq
    unfold update_file
    rw [h]
    simp [heq]
  · intro orig h hne
    have heq : update_file fs ch p tr
        = (writeFile fs p (tr orig), record_change ch (relPosix p)) := by
      unfold update_file
      rw [h]
      simp [hne]
    rw [heq]
    exact ⟨rfl, record_change_mem, record_change_count hnd, record_change_nodup hnd⟩

theorem update_file_contract_witness :
    relPosix ["README.md".toList] ∈
      (update_file fsC1 [] ["README.md".toList] (fun t => t ++ t)).2 ∧
    (update_file fsC1 [] ["README.md".toList] (fun t => t ++ t)).2.Nodup :=
  ⟨((update_file_contract fsC1 [] ["README.md".toList] (fun t => t ++ t)
      (by decide)).2.2 ("# Portalis\n".toList) (by decide) (by decide)).2.1,
   ((update_file_contract fsC1 [] ["README.md".toList] (fun t => t ++ t)
      (by decide)).2.2 ("# Portalis\n".toList) (by decide) (by decide)).2.2.2⟩

/-- C5 (amended): after a successful rename, the changed-set equals the
entry-wise rewrite of the old changed-set (entries prefixed by the old
directory name or the template default name get the slug prefix with the
rest of the path unchanged, all other entries are unchanged, insertion order
is preserved) followed by recording the renamed directory itself; and it
remains duplicate-free provided no two distinct entries are rewritten to the
same path (which holds in actual runs, where entries under the template
default prefix occur only when the old name is the default). -/
theorem rename_rewrites_changed_set (ctx : Context) (fs : FS) (ch : List Text)
    (h1 : ctx.current_dir_name ≠ ctx.slug) (h2 : pathExists fs [ctx.slug] = false)
    (hnd : ch.Nodup)
    (hinj : ∀ a ∈ ch, ∀ b ∈ ch,
      rewriteEntry ctx.current_dir_name ctx.slug a
        = rewriteEntry ctx.current_dir_name ctx.slug b → a = b) :
    (rename_flutter_directory ctx fs ch).2.2.2
      = record_change (ch.map (rewriteEntry ctx.current_dir_name ctx.slug))
          (relPosix [ctx.slug]) ∧
    (∀ e : Text, rewriteEntry ctx.current_dir_name ctx.slug e =
      (if leadsIn (ctx.current_dir_name ++ ("/".toList)) e = true then
         (ctx.slug ++ ("/".toList)) ++ e.drop (ctx.current_dir_name ++ ("/".toList)).length
       else if leadsIn (DEFAULT_DIRNAME ++ ("/".toList)) e = true then
         (ctx.slug ++ ("/".toList)) ++ e.drop (DEFAULT_DIRNAME ++ ("/".toList)).length
       else e)) ∧
    ((rename_flutter_directory ctx fs ch).2.2.2).Nodup := by
  have heq : (rename_flutter_directory ctx fs ch).2.2.2
      = record_change (ch.map (rewriteEntry ctx.current_dir_name ctx.slug))
          (relPosix [ctx.slug]) := by
    unfold rename_flutter_directory
    rw [if_neg h1, if_neg (by simp [h2])]
  refine ⟨heq, fun e => rewriteEntry_char ctx.current_dir_name ctx.slug e, ?_⟩
  rw [heq]
  exact record_change_nodup (List.Nodup.map_on hinj hnd)

theorem rename_rewrites_changed_set_witness :
    (rename_flutter_directory ctxW5 fsW5 chW5).2.2.2
      = record_change (chW5.map (rewriteEntry ctxW5.current_dir_name ctxW5.slug))
          (relPosix [ctxW5.slug]) :=
  (rename_rewrites_changed_set ctxW5 fsW5 chW5 (by decide) (by decide) (by decide)
    (by decide)).1

/-- C5 counterexample: the claim says the changed-set remains duplicate-free
after a successful rename.  With old directory name `legacy` and slug
`newapp`, the duplicate-free changed-set `[portalis/a.md, legacy/a.md]` is
rewritten to `[newapp/a.md, newapp/a.md, newapp]`: the rename succeeds and
the resulting changed-set holds a duplicate. -/
theorem rename_rewrite_can_duplicate :
    chX5.Nodup ∧ (rename_flutter_directory ctxX5 fsX5 chX5).1 = none ∧
    ¬ chX5after.Nodup := by
  decide

/-- C6: `locate_flutter_dir` honours the fixed priority order: the slug-named
directory holding the manifest first, then the template default directory,
then the lexicographically smallest root directory holding the manifest; and
when no root directory holds the manifest the run fails with `NotFoundError`
before any pass runs (the pipeline returns the error and no state). -/
theorem locate_flutter_dir_priority (fs : FS) (slug : Text) :
    (pathExists fs [slug, pubspecName] = true →
       locate_flutter_dir fs slug = .ok ([slug], slug)) ∧
    (pathExists fs [slug, pubspecName] = false →
       pathExists fs [DEFAULT_DIRNAME, pubspecName] = true →
       locate_flutter_dir fs slug = .ok ([DEFAULT_DIRNAME], DEFAULT_DIRNAME)) ∧
    (pathExists fs [slug, pubspecName] = false →
       pathExists fs [DEFAULT_DIRNAME, pubspecName] = false →
       ∀ d : Text, locate_flutter_dir fs slug = .ok ([d], d) →
         d ∈ manifestDirs fs ∧ ∀ x ∈ manifestDirs fs, textLe d x = true) ∧
    (pathExists fs [slug, pubspecName] = false →
       pathExists fs [DEFAULT_DIRNAME, pubspecName] = false →
       manifestDirs fs = [] →
       locate_flutter_dir fs slug = .error .notFound ∧
       (validSlug slug = true → ∀ t, runOnce fs slug t = .error .notFound)) := by
  refine ⟨?_, ?_, ?_, ?_⟩
  · intro h
    unfold locate_flutter_dir
    rw [if_pos h]
  · intro h1 h2
    unfold locate_flutter_dir
    rw [if_neg (by simp [h1]), if_pos h2]
  · intro h1 h2 d hd
    unfold locate_flutter_dir at hd
    rw [if_neg (by simp [h1]), if_neg (by simp [h2])] at hd
    cases hc : rootCandidates fs with
    | nil =>
      rw [hc] at hd
      cases hd
    | cons d0 r =>
      rw [hc] at hd
      have hd0 : d0 = d := congrArg Prod.snd (Except.ok.inj hd)
      subst hd0
      constructor
      · exact mem_rootCandidates.mp (by rw [hc]; exact List.mem_cons_self d0 r)
      · exact rootCandidates_head_min hc
  · intro h1 h2 h3
    have hrc : rootCandidates fs = [] := by
      cases hc : rootCandidates fs with
      | nil => rfl
      | cons d0 r =>
        have hm : d0 ∈ manifestDirs fs :=
          mem_rootCandidates.mp (by rw [hc]; exact List.mem_cons_self d0 r)
        rw [h3] at hm
        cases hm
    have hloc : locate_flutter_dir fs slug = .error .notFound := by
      unfold locate_flutter_dir
      rw [if_neg (by simp [h1]), if_neg (by simp [h2]), hrc]
    refine ⟨hloc, ?_⟩
    intro hv t
    unfold runOnce build_context
    rw [if_neg (by simp [hv]), hloc]

theorem locate_flutter_dir_priority_witness :
    ("aa".toList) ∈ manifestDirs fsW6 ∧
    ∀ x ∈ manifestDirs fsW6, textLe ("aa".toList) x = true :=
  (locate_flutter_dir_priority fsW6 ("zz".toList)).2.2.1 (by decide) (by decide)
    ("aa".toList) (by rfl)

/-- C7: `sanitize_bundle_suffix` always returns a non-empty string of
lowercase letters and digits; the stripped core is empty — and the fallback
token `app` is returned — exactly when the input has no (ASCII) alphanumeric
character, e.g. `---` yields `app`. -/
theorem sanitize_bundle_suffix_spec (s : Text) :
    sanitize_bundle_suffix s ≠ [] ∧
    (sanitize_bundle_suffix s).all isLowerAlnum = true ∧
    (sanitize_core s = [] ↔ s.all (fun c => !(isAsciiAlnum c)) = true) ∧
    sanitize_bundle_suffix s
      = (if sanitize_core s = [] then ("app".toList) else sanitize_core s) ∧
    sanitize_bundle_suffix ("---".toList) = ("app".toList) := by
  refine ⟨?_, ?_, ?_, rfl, by decide⟩
  · unfold sanitize_bundle_suffix
    by_cases h : sanitize_core s = []
    · rw [if_pos h]
      decide
    · rw [if_neg h]
      exact h
  · unfold sanitize_bundle_suffix
    by_cases h : sanitize_core s = []
    · rw [if_pos h]
      decide
    · rw [if_neg h]
      rw [List.all_eq_true]
      intro c hc
      exact (List.mem_filter.mp hc).2
  · constructor
    · intro h
      rw [List.all_eq_true]
      intro c hc
      have hfa : isLowerAlnum (lowerC c) = false := by
        cases hq : isLowerAlnum (lowerC c)
        · rfl
        · exfalso
          have hm : lowerC c ∈ (s.map lowerC).filter isLowerAlnum :=
            List.mem_filter.mpr ⟨List.mem_map_of_mem lowerC hc, hq⟩
          rw [show (s.map lowerC).filter isLowerAlnum = sanitize_core s from rfl, h] at hm
          cases hm
      rw [← lowerC_alnum c, hfa]
      rfl
    · intro h
      unfold sanitize_core
      rw [List.filter_eq_nil_iff]
      intro a ha
      rcases List.mem_map.mp ha with ⟨c, hc, hlc⟩
      rw [List.all_eq_true] at h
      have h2 := h c hc
      rw [← lowerC_alnum c] at h2
      rw [← hlc]
      intro hl
      rw [hl] at h2
      exact absurd h2 (by decide)

theorem sanitize_bundle_suffix_spec_witness :
    sanitize_bundle_suffix ("My-App 7!".toList) ≠ [] ∧
    (sanitize_bundle_suffix ("My-App 7!".toList)).all isLowerAlnum = true ∧
    (sanitize_core ("My-App 7!".toList) = [] ↔
      ("My-App 7!".toList).all (fun c => !(isAsciiAlnum c)) = true) ∧
    sanitize_bundle_suffix ("My-App 7!".toList)
      = (if sanitize_core ("My-App 7!".toList) = [] then ("app".toList)
         else sanitize_core ("My-App 7!".toList)) ∧
    sanitize_bundle_suffix ("---".toList) = ("app".toList) :=
  sanitize_bundle_suffix_spec ("My-App 7!".toList)

/-- C8: `find_remaining_markers` returns an empty mapping when the search
executable is missing; every stored line list is non-empty and free of lines
from the tool's own source file; and (when the tool is available) a pattern
is a key of the result exactly when at least one of its matching lines
survives the self-exclusion filter. -/
theorem find_remaining_markers_spec (env : RgEnv) (ps : List Text) :
    (env.available = false → find_remaining_markers env ps = []) ∧
    (∀ p lines, (p, lines) ∈ find_remaining_markers env ps →
       lines ≠ [] ∧ lines.all (fun l => !(containsSub MARKER l)) = true) ∧
    (env.available = true → ∀ p, p ∈ ps →
       (memL p ((find_remaining_markers env ps).map Prod.fst) = true ↔
        survivingLines env p ≠ [])) := by
  refine ⟨?_, ?_, ?_⟩
  · intro ha
    cases ps with
    | nil => rfl
    | cons p rest => rw [find_remaining_markers, if_pos ha]
  · induction ps with
    | nil =>
      intro p lines h
      cases h
    | cons p0 rest ih =>
      intro p lines h
      rw [find_remaining_markers] at h
      by_cases ha : env.available = false
      · rw [if_pos ha] at h
        cases h
      · rw [if_neg ha] at h
        by_cases hc : (env.run p0).1 = 0 ∧ (env.run p0).2 ≠ []
        · rw [if_pos hc] at h
          by_cases hl : (splitlinesPy (stripWS (env.run p0).2)).filter
              (fun l => !(containsSub MARKER l)) ≠ []
          · rw [if_pos hl] at h
            rcases List.mem_cons.mp h with h1 | h2
            · have hlines : lines = (splitlinesPy (stripWS (env.run p0).2)).filter
                  (fun l => !(containsSub MARKER l)) := congrArg Prod.snd h1
              rw [hlines]
              exact ⟨hl, all_of_filter _ _⟩
            · exact ih p lines h2
          · rw [if_neg hl] at h
            exact ih p lines h
        · rw [if_neg hc] at h
          exact ih p lines h
  · intro ha
    induction ps with
    | nil =>
      intro p hp
      cases hp
    | cons p0 rest ih =>
      intro p hp
      rw [find_remaining_markers, if_neg (by simp [ha])]
      by_cases hc : (env.run p0).1 = 0 ∧ (env.run p0).2 ≠ []
      · rw [if_pos hc]
        by_cases hl : (splitlinesPy (stripWS (env.run p0).2)).filter
            (fun l => !(containsSub MARKER l)) ≠ []
        · rw [if_pos hl]
          simp only [List.map_cons, memL]
          by_cases hqp : p = p0
          · rw [if_pos hqp]
            subst hqp
            constructor
            · intro _
              unfold survivingLines
              rw [if_pos hc.1]
              exact hl
            · intro _
              rfl
          · rw [if_neg hqp]
            have hp2 : p ∈ rest := by
              rcases List.mem_cons.mp hp with h5 | h5
              · exact absurd h5 hqp
              · exact h5
            exact ih p hp2
        · rw [if_neg hl]
          by_cases hqp : p = p0
          · subst hqp
            constructor
            · intro hm
              by_cases hpr : p ∈ rest
              · exact (ih p hpr).mp hm
              · exact absurd (find_keys_mem hm) hpr
            · intro hsurv
              exfalso
              apply hsurv
              unfold survivingLines
              rw [if_pos hc.1]
              exact not_ne_iff.mp hl
          · have hp2 : p ∈ rest := by
              rcases List.mem_cons.mp hp with h5 | h5
              · exact absurd h5 hqp
              · exact h5
            exact ih p hp2
      · rw [if_neg hc]
        by_cases hqp : p = p0
        · subst hqp
          have hsv : survivingLines env p = [] := by
            unfold survivingLines
            by_cases hrc : (env.run p).1 = 0
            · rw [if_pos hrc]
              have hout : (env.run p).2 = [] := by
                by_contra hne2
                exact hc ⟨hrc, hne2⟩
              rw [hout]
              rfl
            · rw [if_neg hrc]
              rfl
          constructor
          · intro hm
            by_cases hpr : p ∈ rest
            · exact (ih p hpr).mp hm
            · exact absurd (find_keys_mem hm) hpr
          · intro hsurv
            exact absurd hsv hsurv
        · have hp2 : p ∈ rest := by
            rcases List.mem_cons.mp hp with h5 | h5
            · exact absurd h5 hqp
            · exact h5
          exact ih p hp2

theorem find_remaining_markers_spec_witness :
    memL ("Portalis".toList)
      ((find_remaining_markers envW8
        ["Portalis".toList, "portalis".toList]).map Prod.fst) = true ↔
    survivingLines envW8 ("Portalis".toList) ≠ [] :=
  (find_remaining_markers_spec envW8 ["Portalis".toList, "portalis".toList]).2.2
    (by rfl) ("Portalis".toList) (by decide)

/-- C9: for every slug accepted by the validation pattern
`^[a-z][a-z0-9_]*$`, `derive_app_title` (split on runs of `-`/`_`,
capitalize the nonempty segments, join with single spaces, fall back to
capitalizing the whole slug) returns a non-empty title. -/
theorem derive_app_title_nonempty (s : Text) (h : validSlug s = true) :
    derive_app_title s ≠ [] := by
  cases s with
  | nil => simp [validSlug] at h
  | cons c rest =>
    unfold derive_app_title
    by_cases hj : joinWith (" ".toList)
        (((splitRuns (c :: rest)).filter (fun p => p ≠ [])).map capitalizeT) = []
    · rw [if_pos hj]
      simp [capitalizeT]
    · rw [if_neg hj]
      exact hj

theorem derive_app_title_nonempty_witness :
    derive_app_title ("my_app".toList) ≠ [] :=
  derive_app_title_nonempty ("my_app".toList) (by decide)

/-- C10: for one language directory of the Android package relocation: if
the package base is missing nothing happens; if a directory named for the
current bundle suffix already exists nothing is renamed; otherwise either
nothing happens, or exactly the first existing directory named for a
previous bundle suffix different from the current one is renamed to the
current suffix — and every file or directory outside the moved directory and
its new location is untouched. -/
theorem update_package_dirs_lang_spec (ctx : Context) (fs : FS) (ch : List Text)
    (lang : Text) :
    (pathExists fs (pkgBase ctx lang ++ [ctx.bundle_suffix]) = true →
       update_package_dirs_lang ctx fs ch lang = (fs, ch)) ∧
    (update_package_dirs_lang ctx fs ch lang = (fs, ch) ∨
     ∃ s l1 l2,
       ctx.previous_bundle_suffixes.filter (fun x => decide (x ≠ ctx.bundle_suffix))
         = l1 ++ s :: l2 ∧
       (∀ x ∈ l1, pathExists fs (pkgBase ctx lang ++ [x]) = false) ∧
       pathExists fs (pkgBase ctx lang ++ [s]) = true ∧
       s ≠ ctx.bundle_suffix ∧
       pathExists fs (pkgBase ctx lang ++ [ctx.bundle_suffix]) = false ∧
       update_package_dirs_lang ctx fs ch lang =
         (renameDir fs (pkgBase ctx lang ++ [s]) (pkgBase ctx lang ++ [ctx.bundle_suffix]),
          record_change ch (relPosix (pkgBase ctx lang ++ [ctx.bundle_suffix]))) ∧
       (∀ p : FPath, leadsIn (pkgBase ctx lang ++ [s]) p = false →
          leadsIn (pkgBase ctx lang ++ [ctx.bundle_suffix]) p = false →
          lookupFile (update_package_dirs_lang ctx fs ch lang).1 p = lookupFile fs p ∧
          memL p (update_package_dirs_lang ctx fs ch lang).1.dirs = memL p fs.dirs)) := by
  constructor
  · intro hnd
    unfold update_package_dirs_lang
    by_cases hpb : pathExists fs (pkgBase ctx lang) = false
    · rw [if_pos hpb]
    · rw [if_neg hpb, if_pos hnd]
  · unfold update_package_dirs_lang
    by_cases hpb : pathExists fs (pkgBase ctx lang) = false
    · left
      rw [if_pos hpb]
    · rw [if_neg hpb]
      by_cases hnd : pathExists fs (pkgBase ctx lang ++ [ctx.bundle_suffix]) = true
      · left
        rw [if_pos hnd]
      · rw [if_neg hnd]
        cases hfind : findPrevSuffixDir fs (pkgBase ctx lang) ctx.bundle_suffix
            ctx.previous_bundle_suffixes with
        | none =>
          left
          rfl
        | some s =>
          right
          rcases findPrev_some hfind with ⟨l1, l2, he, hall, hex, hsb⟩
          have hndf : pathExists fs (pkgBase ctx lang ++ [ctx.bundle_suffix]) = false := by
            cases hq : pathExists fs (pkgBase ctx lang ++ [ctx.bundle_suffix])
            · rfl
            · exact absurd hq hnd
          refine ⟨s, l1, l2, he, hall, hex, hsb, hndf, rfl, ?_⟩
          intro p hp1 hp2
          exact renameDir_frame fs (pkgBase ctx lang ++ [s])
            (pkgBase ctx lang ++ [ctx.bundle_suffix]) p hp1 hp2

theorem update_package_dirs_lang_spec_witness :
    update_package_dirs_lang ctxW10 fsW10 [] ("kotlin".toList) = (fsW10, []) :=
  (update_package_dirs_lang_spec ctxW10 fsW10 [] ("kotlin".toList)).1 (by decide)
